/-
  Verification of the `with.namespace` process-pipeline engine and setuid
  namespace helper.

  Shallow embedding of the C++ sources:
    src/exec.hpp / src/exec.cpp      : failure, exec_args, exec_with_namespace
    src/pipe.hpp / src/pipe.cpp      : FD, SignalBlocker, daemon_pipe
                                       (File::open, Proc::safe_fork_exec,
                                        ProcHarvester, LockFile, exec,
                                        try_error_write)
    src/exec_with_namespace.cpp      : the setuid helper main and
                                       create_symlinks_and_metadata

  Syscalls are modelled by explicit oracle worlds (records of syscall
  outcomes) and the functions produce event traces, so every claim about
  "what syscalls run, in what order, with which arguments" becomes a
  statement about the trace.
-/
import Mathlib

namespace WithNS

/-! ## Linux constants (x86-64 Linux values, as in <fcntl.h>, <signal.h>,
    <sys/file.h>, <errno.h>) -/

def O_RDONLY : Nat := 0
def O_WRONLY : Nat := 1
def O_RDWR : Nat := 2
def O_ACCMODE : Nat := 3
def O_CREAT : Nat := 64
def O_APPEND : Nat := 1024

def SIGHUP : Nat := 1
def SIGINT : Nat := 2
def SIGQUIT : Nat := 3
def SIGPIPE : Nat := 13
def SIGTERM : Nat := 15
def SIGCHLD : Nat := 17

def LOCK_EX : Nat := 2
def LOCK_NB : Nat := 4
def EWOULDBLOCK : Nat := 11

/-! ## `failure` (src/exec.hpp lines 10-17, src/exec.cpp lines 12-19)

    `failure::failure(const char *fmt, ...)` formats into the fixed member
    buffer `char m_err[256]` with `vsnprintf(m_err, sizeof(m_err)-1, fmt, ap)`
    -- size argument 255, so at most 254 characters are stored plus the NUL
    terminator -- and then redundantly sets `m_err[255] = '\0'`.  We model the
    stored message as the character list that ends up before the NUL. -/

def failureBufSize : Nat := 256

structure Failure where
  msg : List Char
deriving Repr, DecidableEq

/-- `failure(fmt, ...)`: the fully formatted text `s` is truncated by
    `vsnprintf(m_err, 255, ...)` to at most 254 characters. -/
def mkFailure (s : List Char) : Failure := ⟨s.take 254⟩

/-- Convenience: build a `failure` from a Lean string literal (the formatted
    message of a `CHECK(...)` / `throw failure(...)` site). -/
def mkFailureS (s : String) : Failure := mkFailure s.toList

/-! ## `daemon_pipe::File::open` (src/pipe.cpp lines 76-129)

    A `file_spec` is a filename (empty means anonymous pipe) plus an append
    flag; a `File` accumulates `m_wantRead` / `m_wantWrite` during wiring and
    `open()` realizes the endpoint.  We record which descriptor object ends up
    on each side and every `::open` syscall performed (path and flags). -/

structure FileSpecM where
  filename : String
  append : Bool
deriving Repr, DecidableEq

structure FileM where
  spec : FileSpecM
  wantRead : Bool
  wantWrite : Bool
deriving Repr, DecidableEq

/-- Identity of the kernel descriptor installed on a side.  `namedFd` carries
    the path and flags of the single `::open` call that produced it, so two
    sides holding equal `namedFd` values model the *same* `FDPtr` object in the
    source (lines 86 and 114/121: both sides are assigned the same `fd`). -/
inductive FdRef where
  | anonRead
  | anonWrite
  | dupStdin
  | dupStdout
  | dupStderr
  | namedFd (path : String) (flags : Nat)
deriving Repr, DecidableEq

structure OpenedFile where
  readSide : Option FdRef
  writeSide : Option FdRef
  /-- every `::open(path, flags, 0666)` syscall issued, in order -/
  openCalls : List (String × Nat)
deriving Repr, DecidableEq

/-- Oracle for the fallible syscalls in `File::open`. -/
structure FsWorld where
  pipeOk : Bool
  dupOk : Bool
  openOk : Bool
deriving Repr, DecidableEq

/-- `daemon_pipe::File::open()` (src/pipe.cpp lines 76-129), follows the
    source branch for branch.  In the named-path else-branch (lines 108-126)
    the flag word starts at 0, ORs in `O_RDONLY` when reading is wanted,
    ORs in `O_CREAT|O_WRONLY` (and `O_APPEND` when appending) when writing is
    wanted, and a single `::open` produces the one descriptor that is stored
    on both requested sides. -/
def fileOpen (w : FsWorld) (f : FileM) : Except Failure OpenedFile :=
  if f.spec.filename = "" then
    if w.pipeOk then
      .ok ⟨some .anonRead, some .anonWrite, []⟩
    else
      .error (mkFailureS "pipe failed")
  else if f.spec.filename = "/dev/stdin" then
    if f.wantWrite then .error (mkFailureS "caller_stdin cannot be used for writing")
    else if w.dupOk then .ok ⟨some .dupStdin, none, []⟩
    else .error (mkFailureS "dup(STDIN_FILENO) failed: %m")
  else if f.spec.filename = "/dev/stdout" then
    if f.wantRead then .error (mkFailureS "caller_stdout cannot be used for reading")
    else if w.dupOk then .ok ⟨none, some .dupStdout, []⟩
    else .error (mkFailureS "dup(STDOUT_FILENO) failed: %m")
  else if f.spec.filename = "/dev/stderr" then
    if f.wantRead then .error (mkFailureS "caller_stderr cannot be used for reading")
    else if w.dupOk then .ok ⟨none, some .dupStderr, []⟩
    else .error (mkFailureS "dup(STDERR_FILENO) failed: %m")
  else
    let mode0 : Nat := 0
    let mode1 : Nat := if f.wantRead then mode0 ||| O_RDONLY else mode0
    let mode2 : Nat :=
      if f.wantWrite then
        (mode1 ||| (O_CREAT ||| O_WRONLY)) |||
          (if f.spec.append then O_APPEND else 0)
      else mode1
    if w.openOk then
      let fd : FdRef := .namedFd f.spec.filename mode2
      .ok ⟨if f.wantRead then some fd else none,
           if f.wantWrite then some fd else none,
           [(f.spec.filename, mode2)]⟩
    else
      .error (mkFailureS ("open " ++ f.spec.filename ++ " failed: %m"))

/-! ## `daemon_proc_spec` (src/pipe.hpp lines 63-91)

    Result slots `m_pid` (-1 sentinel), `m_exited`, `m_status`; the
    predicates `started`, `running`, `finished` are read straight off the
    header. -/

structure ProcSpecM where
  cmdArgv : List String
  forwardSignals : Bool
  pid : Int
  exited : Bool
  status : Nat
deriving Repr, DecidableEq

def ProcSpecM.resetStatus (s : ProcSpecM) : ProcSpecM :=
  { s with pid := -1, exited := false, status := 0 }

def ProcSpecM.started (s : ProcSpecM) : Bool := s.pid != -1
def ProcSpecM.running (s : ProcSpecM) : Bool := s.pid != -1 && !s.exited
def ProcSpecM.finished (s : ProcSpecM) : Bool := s.started && !s.running

/-- `WIFEXITED(status)`: low 7 bits zero. -/
def wIFEXITED (status : Nat) : Bool := status &&& 0x7f == 0
/-- `WEXITSTATUS(status)`: bits 8..15. -/
def wEXITSTATUS (status : Nat) : Nat := (status >>> 8) &&& 0xff

/-! ## `daemon_pipe::Proc::safe_fork_exec` (src/pipe.cpp lines 132-186)

    We model the parent's view.  The child branch (`pid == 0`) never returns
    to this caller: it either execs (replacing the image) or writes its
    failure text to the error pipe and `_exit(1)`s; its effect on the parent
    is fully captured by the oracle's read result.  The oracle supplies the
    `fork` result and what `read` on the error pipe returns. -/

inductive PEv where
  | closeErrPipeWrite
  | readErrPipe
  | killEv (pid : Int) (sig : Nat)
  | waitpidEv (pid : Int)
deriving Repr, DecidableEq

structure ForkWorld where
  /-- return value of `fork()`: negative = failure, positive = child pid
      (the parent never sees 0) -/
  forkPid : Int
  /-- `read(errorPipeRead, ...)`: `none` = read error (ret < 0),
      `some bs` = success returning the bytes `bs` (empty = EOF) -/
  readRes : Option (List Char)
deriving Repr, DecidableEq

/-- `safe_fork_exec` parent path (src/pipe.cpp lines 132-186): check argv
    non-empty, make the error pipe, fork; in the parent close the write side
    and read; `ret > 0` means the child failed before exec and the bytes read
    are the failure message (`failure f; read(..., f.m_err, ...)`, line
    171-175) -- thrown without recording the pid; `ret == 0` (EOF) means exec
    succeeded, so record the pid into the spec and return it.  The
    `catch(...)` (lines 180-185) sends SIGTERM to the child and waitpids it
    before rethrowing anything thrown after the successful fork. -/
def safe_fork_exec (w : ForkWorld) (spec : ProcSpecM) :
    Except Failure Int × ProcSpecM × List PEv :=
  if spec.cmdArgv = [] then
    (.error (mkFailureS "cmd_argv is empty"), spec, [])
  else if w.forkPid < 0 then
    (.error (mkFailureS "fork failed: %m"), spec, [])
  else
    let evs := [PEv.closeErrPipeWrite, PEv.readErrPipe]
    let onThrow := evs ++ [PEv.killEv w.forkPid SIGTERM, PEv.waitpidEv w.forkPid]
    match w.readRes with
    | none =>
        (.error (mkFailureS "read from error pipe failed: %m"), spec, onThrow)
    | some bs =>
        if bs = [] then
          (.ok w.forkPid, { spec with pid := w.forkPid }, evs)
        else
          (.error ⟨bs⟩, spec, onThrow)

/-! ## `SignalBlocker` (src/pipe.cpp lines 188-219, src/pipe.hpp lines 40-50)

    Process-wide signal state: the blocked-signal mask and the SIGHUP
    disposition.  The constructor builds the six-signal set, installs SIG_IGN
    for SIGHUP saving the old action, and blocks the set with `SIG_BLOCK`
    (union), saving the old mask.  `unblock()` restores the old mask with
    `SIG_SETMASK`; the destructor calls `unblock()` and then restores the
    saved SIGHUP action. -/

inductive SigAction where
  | dfl
  | ign
  | handler (id : Nat)
deriving Repr, DecidableEq

structure SigState where
  /-- `blocked s = true` iff signal number `s` is in the process mask -/
  blocked : Nat → Bool
  hupAction : SigAction

/-- the set built by the six `sigaddset` calls (lines 190-196) -/
def blockerSet (s : Nat) : Bool :=
  s == SIGCHLD || s == SIGHUP || s == SIGTERM || s == SIGINT ||
    s == SIGQUIT || s == SIGPIPE

structure SignalBlockerM where
  oldset : Nat → Bool
  oldHUPAction : SigAction

/-- `SignalBlocker::SignalBlocker()`: save the old SIGHUP action while
    setting SIG_IGN, then `sigprocmask(SIG_BLOCK, set, &oldset)` -- the new
    mask is the union of the old mask and the set. -/
def signalBlockerCtor (st : SigState) : SigState × SignalBlockerM :=
  let st1 : SigState := { st with hupAction := .ign }
  let st2 : SigState :=
    { st1 with blocked := fun s => st1.blocked s || blockerSet s }
  (st2, ⟨st.blocked, st.hupAction⟩)

/-- `SignalBlocker::unblock()`: `sigprocmask(SIG_SETMASK, &m_oldset, NULL)`. -/
def signalBlockerUnblock (b : SignalBlockerM) (st : SigState) : SigState :=
  { st with blocked := b.oldset }

/-- `SignalBlocker::~SignalBlocker()`: `unblock()` then restore the saved
    SIGHUP action. -/
def signalBlockerDtor (b : SignalBlockerM) (st : SigState) : SigState :=
  let st1 := signalBlockerUnblock b st
  { st1 with hupAction := b.oldHUPAction }

/-! ## `ProcHarvester` (src/pipe.cpp lines 222-307)

    The harvest loop alternates a non-blocking `waitpid` scan over the child
    set with `sigwait` on the blocked set.  The oracle script supplies, per
    iteration, the `waitpid` outcome for each pid, the signal `sigwait`
    delivers, and whether `kill` succeeds for each pid. -/

inductive HEv where
  | hWaitpidEv (pid : Int)
  | sigwaitEv (sig : Nat)
  | hKillEv (pid : Int) (sig : Nat)
deriving Repr, DecidableEq

inductive WaitR where
  | err
  | stillRunning
  | reaped (status : Nat)
deriving Repr, DecidableEq

structure HRound where
  waitRes : Int → WaitR
  sig : Nat
  killOk : Int → Bool

/-- One pass of the `waitpid(..., WNOHANG)` scan (lines 249-266): skip
    non-running procs; a reap marks `exited` and stores the status; `ret == 0`
    leaves `somethingleft` set; a `waitpid` error throws immediately (the
    `CHECK` at line 257), leaving the remaining procs unscanned. -/
def harvestScan (wr : Int → WaitR) :
    List ProcSpecM → (List ProcSpecM × Bool × Option Failure) × List HEv
  | [] => (([], false, none), [])
  | p :: rest =>
    if p.running then
      match wr p.pid with
      | .err =>
          ((p :: rest, false, some (mkFailureS "waitpid failed: %m")),
           [HEv.hWaitpidEv p.pid])
      | .reaped st =>
          let q := { p with exited := true, status := st }
          let ((rest2, left, f), evs) := harvestScan wr rest
          ((q :: rest2, left, f), HEv.hWaitpidEv p.pid :: evs)
      | .stillRunning =>
          let ((rest2, _, f), evs) := harvestScan wr rest
          ((p :: rest2, true, f), HEv.hWaitpidEv p.pid :: evs)
    else
      let ((rest2, left, f), evs) := harvestScan wr rest
      ((p :: rest2, left, f), evs)

/-- Signal forwarding (lines 277-289): for each proc that is running and has
    `m_forwardSignals`, invoke `kill(pid, sig)`; a kill failure throws (the
    `CHECK` at line 285), stopping the loop. -/
def forwardKills (killOk : Int → Bool) (sig : Nat) :
    List ProcSpecM → Option Failure × List HEv
  | [] => (none, [])
  | p :: rest =>
    if p.running && p.forwardSignals then
      if killOk p.pid then
        let (f, evs) := forwardKills killOk sig rest
        (f, HEv.hKillEv p.pid sig :: evs)
      else
        (some (mkFailureS
          ("kill pid=" ++ toString p.pid ++ " sig=" ++ toString sig
            ++ " failed: %m")),
         [HEv.hKillEv p.pid sig])
    else
      forwardKills killOk sig rest

inductive HOut where
  | finishedOut
  | failedOut (f : Failure)
  /-- the oracle script ran out while children were still running (the real
      loop would block in `sigwait` for more events) -/
  | stuck
deriving Repr, DecidableEq

/-- `ProcHarvester::harvest()` (src/pipe.cpp lines 243-303).  Each iteration:
    scan; if nothing is left running, return; otherwise `sigwait` (modelled as
    always succeeding -- with valid arguments it can only fail with EINVAL)
    and dispatch: SIGTERM/SIGINT/SIGQUIT forward to running procs with
    `m_forwardSignals`; SIGCHLD, SIGHUP, SIGPIPE and everything else fall
    through to `break` out of the switch and re-loop. -/
def harvest : List HRound → List ProcSpecM →
    (HOut × List ProcSpecM) × List HEv
  | [], procs => ((.stuck, procs), [])
  | r :: rest, procs =>
    let ((procs1, left, ferr), evs1) := harvestScan r.waitRes procs
    match ferr with
    | some f => ((.failedOut f, procs1), evs1)
    | none =>
      if !left then ((.finishedOut, procs1), evs1)
      else
        let evs2 := evs1 ++ [HEv.sigwaitEv r.sig]
        if r.sig = SIGTERM ∨ r.sig = SIGINT ∨ r.sig = SIGQUIT then
          let (fk, kevs) := forwardKills r.killOk r.sig procs1
          match fk with
          | some f => ((.failedOut f, procs1), evs2 ++ kevs)
          | none =>
              let (out, evs3) := harvest rest procs1
              (out, evs2 ++ kevs ++ evs3)
        else
          let (out, evs3) := harvest rest procs1
          (out, evs2 ++ evs3)

/-- `ProcHarvester::~ProcHarvester()` (src/pipe.cpp lines 226-233):
    `try { harvest(); } catch(...) {}` -- whatever `harvest` throws is
    swallowed; no failure ever escapes the destructor.  The updated spec
    states survive (the specs are shared with the caller). -/
def harvesterDtor (rounds : List HRound) (procs : List ProcSpecM) :
    (Option Failure × List ProcSpecM) × List HEv :=
  let ((_, procs2), evs) := harvest rounds procs
  ((none, procs2), evs)

/-! ## `daemon_pipe::LockFile` (src/pipe.cpp lines 309-346) -/

inductive LEv where
  | lOpenEv (path : String) (flags : Nat) (mode : Nat)
  | lCloexecEv
  | lFlockEv (op : Nat)
  | lFtruncateEv (len : Nat)
  | lWriteEv (content : String)
  | lCloseEv
  | lUnlinkEv
deriving Repr, DecidableEq

structure LockWorld where
  /-- `::open` succeeds -/
  openOk : Bool
  /-- `flock` result: `none` = success, `some e` = failure with errno `e` -/
  flockErrno : Option Nat
  ftruncateOk : Bool
  writeOk : Bool
  /-- `getpid()` -/
  pid : Nat
deriving Repr, DecidableEq

/-- `LockFile::open` (src/pipe.cpp lines 309-330): open `O_CREAT|O_RDWR`
    mode 0666, set close-on-exec, `flock(LOCK_EX|LOCK_NB)`; on flock failure
    close the fd first (so the destructor will not truncate), then throw the
    already-running message for EWOULDBLOCK and a generic one otherwise; on
    success `ftruncate(0)` and write `"<pid>\n"`.  Returns the failure if
    any, whether the fd is left open+locked, and the syscall trace. -/
def lockFile_open (w : LockWorld) (path : String) :
    Option Failure × Bool × List LEv :=
  let evs0 := [LEv.lOpenEv path (O_CREAT ||| O_RDWR) 438]
  if !w.openOk then
    (some (mkFailureS
      ("unable to open pidfile " ++ path ++ " for writing: %m")), false, evs0)
  else
    let evs1 := evs0 ++ [LEv.lCloexecEv, LEv.lFlockEv (LOCK_EX ||| LOCK_NB)]
    match w.flockErrno with
    | some e =>
        let evs2 := evs1 ++ [LEv.lCloseEv]
        if e = EWOULDBLOCK then
          (some (mkFailureS
            ("process is already running (pidfile " ++ path ++ " is locked)")),
           false, evs2)
        else
          (some (mkFailureS ("unable to lock pidfile " ++ path)), false, evs2)
    | none =>
        let evs2 := evs1 ++ [LEv.lFtruncateEv 0]
        if !w.ftruncateOk then
          (some (mkFailureS ("unable to truncate lockfile " ++ path ++ ": %m")),
           true, evs2)
        else
          let evs3 := evs2 ++ [LEv.lWriteEv (toString w.pid ++ "\n")]
          if !w.writeOk then
            (some (mkFailureS
              ("unable to write to lockfile " ++ path ++ ": %m")), true, evs3)
          else
            (none, true, evs3)

/-- `LockFile::~LockFile()` (src/pipe.cpp lines 332-346): if the fd is held,
    `ftruncate(0)` (result ignored) and close; the file is never unlinked. -/
def lockFile_dtor (held : Bool) : List LEv :=
  if held then [LEv.lFtruncateEv 0, LEv.lCloseEv] else []

/-! ## `daemon_pipe::exec` (src/pipe.cpp lines 348-396)

    A `daemon_proc_spec` references its stdio `file_spec`s by object identity
    (shared_ptr equality); we model each distinct `file_spec` object as a
    numeric identity whose content (filename, append) the world supplies.
    `FileMap::get` (src/pipe.hpp lines 110-136) searches by that identity and
    OR-folds `want_read` / `want_write`. -/

structure DProcSpec where
  cmdArgv : List String
  forwardSignals : Bool
  stdinId : Option Nat
  stdoutId : Option Nat
  stderrId : Option Nat
deriving Repr, DecidableEq

structure DaemonPipe where
  lockFile : String
  specs : List DProcSpec
deriving Repr, DecidableEq

def toProcSpecM (s : DProcSpec) : ProcSpecM :=
  ⟨s.cmdArgv, s.forwardSignals, -1, false, 0⟩

/-- `FileMap::get`: look up by spec identity, OR-fold the want flags, append
    a fresh entry on first reference. -/
def fileMapGet (m : List (Nat × Bool × Bool)) (id : Nat) (wr ww : Bool) :
    List (Nat × Bool × Bool) :=
  if m.any (fun e => e.1 = id) then
    m.map (fun e => if e.1 = id then (e.1, e.2.1 || wr, e.2.2 || ww) else e)
  else m ++ [(id, wr, ww)]

/-- the wiring loop of `exec` (src/pipe.cpp lines 366-376): stdin as a
    reader, stdout and stderr as writers. -/
def fileMapBuild (specs : List DProcSpec) : List (Nat × Bool × Bool) :=
  specs.foldl
    (fun m s =>
      let m1 := match s.stdinId with
        | some i => fileMapGet m i true false
        | none => m
      let m2 := match s.stdoutId with
        | some i => fileMapGet m1 i false true
        | none => m1
      match s.stderrId with
        | some i => fileMapGet m2 i false true
        | none => m2)
    []

inductive XEv where
  | xGateEv
  | xLockOpenEv (path : String)
  | xFileOpenEv (id : Nat)
  | xForkEv (pid : Int)
deriving Repr, DecidableEq

structure ExecWorld where
  /-- content of the `file_spec` object with a given identity -/
  endpointSpec : Nat → FileSpecM
  fs : Nat → FsWorld
  lock : LockWorld
  /-- fork/exec oracle for the i-th proc -/
  forks : Nat → ForkWorld

/-- the `(*file)->open()` loop of `exec` (src/pipe.cpp lines 381-384); an
    open failure throws out of `exec`. -/
def openAll (w : ExecWorld) : List (Nat × Bool × Bool) →
    Option Failure × List XEv
  | [] => (none, [])
  | (id, wr, ww) :: rest =>
    match fileOpen (w.fs id) ⟨w.endpointSpec id, wr, ww⟩ with
    | .error f => (some f, [XEv.xFileOpenEv id])
    | .ok _ =>
        let (f, evs) := openAll w rest
        (f, XEv.xFileOpenEv id :: evs)

/-- the fork loop of `exec` (src/pipe.cpp lines 386-395): fork in declaration
    order, the first child's pid becomes the shared pgid. -/
def forkAll (forks : Nat → ForkWorld) :
    Nat → Int → List ProcSpecM → (Option Failure × List ProcSpecM) × List XEv
  | _, _, [] => ((none, []), [])
  | idx, pgid, p :: rest =>
    match safe_fork_exec (forks idx) p with
    | (.error f, p2, _) => ((some f, p2 :: rest), [])
    | (.ok pid, p2, _) =>
        let pgid2 := if pgid = 0 then pid else pgid
        let ((f, rest2), evs) := forkAll forks (idx + 1) pgid2 rest
        ((f, p2 :: rest2), XEv.xForkEv pid :: evs)

/-- `daemon_pipe::exec()` (src/pipe.cpp lines 348-396), the function body up
    to the end of the fork loop.  The very first statement is
    `CHECK(!m_specs.empty(), "no procs to execute")`; only after it succeeds
    are the SignalBlocker installed, the lock optionally acquired, the
    endpoints opened and the procs forked.  Teardown effects (harvester
    destructor, lock release, mask restore) are modelled separately by
    `harvesterDtor`, `lockFile_dtor` and `signalBlockerDtor`. -/
def execModel (w : ExecWorld) (dp : DaemonPipe) : Option Failure × List XEv :=
  if dp.specs = [] then (some (mkFailureS "no procs to execute"), [])
  else
    let evs0 := [XEv.xGateEv]
    let fmap := fileMapBuild dp.specs
    let (lockFail, lockEvs) :=
      if dp.lockFile ≠ "" then
        let (f, _, _) := lockFile_open w.lock dp.lockFile
        (f, [XEv.xLockOpenEv dp.lockFile])
      else (none, [])
    match lockFail with
    | some f => (some f, evs0 ++ lockEvs)
    | none =>
      let (openFail, openEvs) := openAll w fmap
      match openFail with
      | some f => (some f, evs0 ++ lockEvs ++ openEvs)
      | none =>
        let ((forkFail, _), forkEvs) :=
          forkAll w.forks 0 0 (dp.specs.map toProcSpecM)
        (forkFail, evs0 ++ lockEvs ++ openEvs ++ forkEvs)

/-! ## `daemon_pipe::try_error_write` (src/pipe.cpp lines 398-439)

    The whole body is wrapped in `try { ... } catch(failure &f)
    { writeN(STDERR_FILENO, input, ...); }`: every failure thrown inside is
    caught and answered by writing the original input to stderr; nothing
    propagates.  (The SignalBlocker construction is modelled as succeeding:
    with valid arguments `sigaction`/`sigprocmask` cannot fail.)
    Returns the propagated failure (if any) and the list of stderr writes. -/

structure TryWorld where
  pipeOk : Bool
  fork : ForkWorld
  /-- return of `::write(file.m_writeSide->get(), input, len)` -/
  writeRet : Int
  /-- harvest script consumed by the `ProcHarvester` destructor at the end
      of the inner scope -/
  rounds : List HRound

def try_error_write (w : TryWorld) (specs : List ProcSpecM) (input : String) :
    Option Failure × List String :=
  if specs.length ≠ 1 then
    -- CHECK(m_specs.size() == 1, ...) throws; the catch writes the input
    (none, [input])
  else
    match specs with
    | [] => (none, [input])
    | procSpec :: _ =>
      if !w.pipeOk then
        -- File::open's pipe failed; the empty harvester unwinds harmlessly
        (none, [input])
      else
        match safe_fork_exec w.fork procSpec.resetStatus with
        | (.error _, _, _) =>
            -- fork or exec failed; harvester dtor reaps, the catch writes
            (none, [input])
        | (.ok _, spec1, _) =>
          if w.writeRet < 0 then
            -- CHECK(ret >= 0, "write failed: %m"); harvester dtor reaps,
            -- the catch writes
            (none, [input])
          else
            -- inner scope ends: the harvester destructor runs the harvest
            let ((_, procs2), _) := harvesterDtor w.rounds [spec1]
            let spec2 := procs2.headD spec1
            if spec2.finished && wIFEXITED spec2.status
                && wEXITSTATUS spec2.status == 0 then
              (none, [])
            else
              -- throw failure("proc failed"); the catch writes the input
              (none, [input])

/-! ## The setuid helper (src/exec_with_namespace.cpp)

    `WITH_MOUNTPOINT` is `"/with"` (src/exec_defs.hpp line 6).  The helper's
    `CHECK` prints to stderr and returns 1 (it never throws). -/

def WITH_MOUNTPOINT : String := "/with"

inductive HelpEv where
  | unshareEv
  | umountEv
  | mountEv (src : String)
  | mkdirEv (path : String)
  | symlinkEv (src : String) (dst : String)
  | writeFileEv (path : String) (content : String)
  | execEv (argv : List String) (env : List String)
deriving Repr, DecidableEq

structure HelperWorld where
  mkdirOk : Bool
  symlinkOk : Bool
  unshareOk : Bool
  umountOk : Bool
  mountOk : Bool
  setuidOk : Bool
  execOk : Bool
deriving Repr, DecidableEq

/-- the target=source split (src/exec_with_namespace.cpp lines 66-71):
    `find('=')` must hit, and `target_source[equal_index + 1]` must be
    non-NUL, i.e. the `=` must not be the last character (`operator[]` at
    `size()` yields `'\0'`). -/
def splitPair (ts : String) : Option (String × String) :=
  match ts.toList.findIdx? (· = '=') with
  | none => none
  | some i =>
      if i + 1 < ts.toList.length then
        some (String.mk (ts.toList.take i), String.mk (ts.toList.drop (i + 1)))
      else none

/-- `std::string::rfind('/')`: index of the last slash, if any. -/
def lastSlashIdx (l : List Char) : Option Nat :=
  match l.reverse.findIdx? (· = '/') with
  | none => none
  | some r => some (l.length - 1 - r)

/-- the per-pair loop of `create_symlinks_and_metadata`
    (src/exec_with_namespace.cpp lines 63-86): split `target=src`; compute
    `mount_path = WITH_MOUNTPOINT "/" + target`; if it contains a slash,
    `mkdir_p` the prefix before the last slash (tolerating EEXIST -- the
    world's `mkdirOk` models `ret >= 0 || errno == EEXIST`); then
    `symlink(source, mount_path)`.  Any CHECK failure returns exit code 1
    immediately. -/
def processPairs (w : HelperWorld) : List String → Bool × List HelpEv
  | [] => (true, [])
  | ts :: rest =>
    match splitPair ts with
    | none => (false, [])
    | some (target, source) =>
      let mountPath := WITH_MOUNTPOINT ++ "/" ++ target
      let preEvs :=
        match lastSlashIdx mountPath.toList with
        | none => []
        | some i => [HelpEv.mkdirEv (String.mk (mountPath.toList.take i))]
      if !preEvs.isEmpty && !w.mkdirOk then (false, preEvs)
      else
        let evs1 := preEvs ++ [HelpEv.symlinkEv source mountPath]
        if !w.symlinkOk then (false, evs1)
        else
          let (ok, evs2) := processPairs w rest
          (ok, evs1 ++ evs2)

/-- contents of `WITH_MOUNTPOINT "/.ns"`: every `ns_args` token (including
    the first) followed by a single space (lines 91-92). -/
def nsFileContent (nsArgs : List String) : String :=
  String.join (nsArgs.map (fun a => a ++ " "))

/-- `create_symlinks_and_metadata(progname, ns_args)`
    (src/exec_with_namespace.cpp lines 60-96): process every element *after
    the first* (`++ns_args.begin()`) as a `target=src` pair, then write the
    `.ns` metadata and return 0.  (The `CHECK(fd >= 0, ...)` after `fopen`
    compares a `FILE*` with 0 using `>=`, which is true even for a NULL
    result, so the metadata write has no failure branch.) -/
def create_symlinks_and_metadata (w : HelperWorld) (nsArgs : List String) :
    Nat × List HelpEv :=
  let (ok, evs) := processPairs w nsArgs.tail
  if !ok then (1, evs)
  else
    (0, evs ++ [HelpEv.writeFileEv (WITH_MOUNTPOINT ++ "/.ns")
                  (nsFileContent nsArgs)])

/-- the backwards scan of `main` (src/exec_with_namespace.cpp lines 119-130)
    over `argv[1..]`: the maximal `--`-free suffix is `env_args`, the next
    `--`-free segment is `ns_args`, and everything before that (with no
    further `--` check) is `exec_args`.
    Returns `(exec_args, ns_args, env_args)`. -/
def splitBack (tokens : List String) :
    List String × List String × List String :=
  let rev := tokens.reverse
  let envRev := rev.takeWhile (· ≠ "--")
  let rest1 := (rev.drop envRev.length).drop 1
  let nsRev := rest1.takeWhile (· ≠ "--")
  let rest2 := (rest1.drop nsRev.length).drop 1
  (rest2.reverse, nsRev.reverse, envRev.reverse)

/-- contents of `WITH_MOUNTPOINT "/.env"`: one entry per line
    (lines 155-156). -/
def envFileContent (envArgs : List String) : String :=
  String.join (envArgs.map (fun e => e ++ "\n"))

/-- the KEY of a `KEY=VALUE` entry. -/
def envKey (s : String) : String :=
  String.mk (s.toList.takeWhile (· ≠ '='))

/-- `putenv(entry)` for an entry containing `=` (the helper's interface hands
    only `KEY=VALUE` tokens): replaces the value if the KEY is already
    present, otherwise appends. -/
def putenvModel (env : List String) (entry : String) : List String :=
  if env.any (fun e => envKey e = envKey entry) then
    env.map (fun e => if envKey e = envKey entry then entry else e)
  else env ++ [entry]

/-- `clearenv()` followed by `putenv` of each entry in order
    (src/exec_with_namespace.cpp lines 166-172). -/
def installEnv (entries : List String) : List String :=
  entries.foldl putenvModel []

/-- `main` of the helper (src/exec_with_namespace.cpp lines 98-178).
    `argc <= 1` is usage.  A first argument of exactly `"--init.d"` collects
    `argv[1..]` -- *including* the `"--init.d"` token itself -- into
    `ns_args` and runs only `create_symlinks_and_metadata`.  Otherwise the
    backwards scan splits the command line; an empty `ns_args` is usage;
    then unshare, umount2(MNT_DETACH), mount tmpfs, symlinks + `.ns`,
    `.env`, drop privileges, install the environment, execvp. -/
def helperMain (w : HelperWorld) (argv : List String) : Nat × List HelpEv :=
  match argv with
  | [] => (1, [])
  | [_] => (1, [])
  | _prog :: a1 :: rest =>
    if a1 = "--init.d" then
      create_symlinks_and_metadata w (a1 :: rest)
    else
      let (execArgs, nsArgs, envArgs) := splitBack (a1 :: rest)
      if nsArgs.isEmpty then (1, [])
      else
        let evs1 := [HelpEv.unshareEv]
        if !w.unshareOk then (1, evs1)
        else
          let evs2 := evs1 ++ [HelpEv.umountEv]
          if !w.umountOk then (1, evs2)
          else
            let mountName := nsArgs.headD ""
            let evs3 := evs2 ++ [HelpEv.mountEv mountName]
            if !w.mountOk then (1, evs3)
            else
              let (c, sevs) := create_symlinks_and_metadata w nsArgs
              let evs4 := evs3 ++ sevs
              if c ≠ 0 then (c, evs4)
              else
                let evs5 := evs4 ++
                  [HelpEv.writeFileEv (WITH_MOUNTPOINT ++ "/.env")
                    (envFileContent envArgs)]
                if !w.setuidOk then (1, evs5)
                else
                  let finalEnv := installEnv envArgs
                  let evs6 := evs5 ++ [HelpEv.execEv execArgs finalEnv]
                  if w.execOk then (0, evs6) else (1, evs6)

/-! ## Small observers used by the statements -/

/-- the namespace-setup syscalls of the helper's privileged sequence -/
def isNamespaceSetupEv : HelpEv → Bool
  | .unshareEv => true
  | .umountEv => true
  | .mountEv _ => true
  | _ => false

/-- the `(source, destination)` of every symlink event, in order -/
def symlinkEvents : List HelpEv → List (String × String)
  | [] => []
  | .symlinkEv s d :: rest => (s, d) :: symlinkEvents rest
  | _ :: rest => symlinkEvents rest

/-- a helper world in which every syscall succeeds -/
def helperAllOk : HelperWorld :=
  ⟨true, true, true, true, true, true, true⟩

def HOut.isFailed : HOut → Bool
  | .failedOut _ => true
  | _ => false

/-! ## Concrete instances used to evaluate the hypothesis-bearing theorems -/

/-- a `try_error_write` world whose child is forked as pid 5, execs
    successfully, accepts the whole write, and is reaped with status 0 at the
    first harvest round -/
def c7World : TryWorld :=
  ⟨true, ⟨5, some []⟩, 0, [⟨fun _ => WaitR.reaped 0, SIGCHLD, fun _ => true⟩]⟩

def c7Spec : ProcSpecM := ⟨["c"], false, -1, false, 0⟩

/-- one harvest round delivering SIGTERM whose `kill` succeeds -/
def c5Round : HRound :=
  ⟨fun _ => WaitR.stillRunning, SIGTERM, fun _ => true⟩

/-- a running proc (pid 5) with `forward_signals` set -/
def c5Proc : ProcSpecM := ⟨["c"], true, 5, false, 0⟩

/-- a running proc (pid 6) with `forward_signals` unset -/
def c5ProcNoFwd : ProcSpecM := ⟨["d"], false, 6, false, 0⟩

/-! # Theorems -/

/-- C10: every failure raised in the supervisor stores its message in the
    fixed 256-byte buffer `m_err`: the constructed message leaves room for
    the NUL terminator (so it is null-terminated and at most 255 characters
    -- in fact at most 254, since `vsnprintf` is called with size 255), and
    any longer formatted diagnostic is silently truncated to its first 254
    characters. -/
theorem C10_failure_message_truncated (s : List Char) :
    (mkFailure s).msg.length + 1 ≤ failureBufSize ∧
      (mkFailure s).msg = s.take 254 := by
  refine ⟨?_, rfl⟩
  simp only [mkFailure, failureBufSize, List.length_take]
  omega

/-- C1 (code bug): for a named-path endpoint requested for both reading and
    writing, `File::open` does issue exactly one `::open` and installs the
    one descriptor on both sides -- but the flag word it builds is
    `O_RDONLY | O_CREAT | O_WRONLY = O_CREAT | O_WRONLY` (`O_RDONLY` is 0
    and access modes are not independent bits), so the access mode is
    `O_WRONLY`, not the `O_RDWR` the spec claims: the installed read side
    refers to a write-only descriptor. -/
theorem C1_rdwr_flags_bug :
    fileOpen ⟨true, true, true⟩ ⟨⟨"f", false⟩, true, true⟩ =
      .ok ⟨some (.namedFd "f" (O_CREAT ||| O_WRONLY)),
           some (.namedFd "f" (O_CREAT ||| O_WRONLY)),
           [("f", O_CREAT ||| O_WRONLY)]⟩ ∧
    (O_CREAT ||| O_WRONLY) &&& O_ACCMODE = O_WRONLY ∧
    O_WRONLY ≠ O_RDWR := ⟨rfl, by decide, by decide⟩

/-- C9: `exec` on a pipeline with zero ProcessSpecs fails with exactly the
    message "no procs to execute", with an empty event trace: no SignalGate
    installation, no lock acquisition, no endpoint open, no fork -- for every
    oracle world and lock-file setting, so it never succeeds doing nothing. -/
theorem C9_exec_empty_specs (w : ExecWorld) (lf : String) :
    execModel w ⟨lf, []⟩ = (some (mkFailureS "no procs to execute"), []) :=
  rfl

/-- C6: the SignalGate round-trips the process signal state: construction
    blocks SIGCHLD, SIGHUP, SIGTERM, SIGINT, SIGQUIT and SIGPIPE and sets
    the SIGHUP disposition to SIG_IGN, and destruction restores the saved
    mask and the saved SIGHUP action, leaving both exactly equal to their
    pre-construction values. -/
theorem C6_signal_gate_roundtrip (st : SigState) :
    signalBlockerDtor (signalBlockerCtor st).2 (signalBlockerCtor st).1 = st ∧
    (signalBlockerCtor st).1.blocked SIGCHLD = true ∧
    (signalBlockerCtor st).1.blocked SIGHUP = true ∧
    (signalBlockerCtor st).1.blocked SIGTERM = true ∧
    (signalBlockerCtor st).1.blocked SIGINT = true ∧
    (signalBlockerCtor st).1.blocked SIGQUIT = true ∧
    (signalBlockerCtor st).1.blocked SIGPIPE = true ∧
    (signalBlockerCtor st).1.hupAction = .ign := by
  refine ⟨rfl, ?_, ?_, ?_, ?_, ?_, ?_, rfl⟩ <;>
    simp [signalBlockerCtor, blockerSet]

/-- C2: after a successful fork, the parent of `safe_fork_exec` first closes
    the error pipe's write side and reads the read side; a non-empty read
    becomes a propagated failure carrying exactly those bytes with the
    ProcessSpec left unchanged (pid not recorded); an EOF read (zero bytes)
    means exec succeeded and the child's pid is recorded into the spec; and
    on every throwing path after the fork (non-empty read or read error) the
    parent kills the child with SIGTERM and waitpids it before rethrowing. -/
theorem C2_safe_fork_exec_parent (w : ForkWorld) (spec : ProcSpecM)
    (hargv : spec.cmdArgv ≠ []) (hpid : 0 < w.forkPid) :
    (safe_fork_exec w spec).2.2.take 2 =
        [PEv.closeErrPipeWrite, PEv.readErrPipe] ∧
    (∀ bs : List Char, w.readRes = some bs → bs ≠ [] →
      safe_fork_exec w spec =
        (.error ⟨bs⟩, spec,
         [PEv.closeErrPipeWrite, PEv.readErrPipe,
          PEv.killEv w.forkPid SIGTERM, PEv.waitpidEv w.forkPid])) ∧
    (w.readRes = some [] →
      safe_fork_exec w spec =
        (.ok w.forkPid, { spec with pid := w.forkPid },
         [PEv.closeErrPipeWrite, PEv.readErrPipe])) ∧
    (∀ f, (safe_fork_exec w spec).1 = .error f →
      (safe_fork_exec w spec).2.2 =
        [PEv.closeErrPipeWrite, PEv.readErrPipe,
         PEv.killEv w.forkPid SIGTERM, PEv.waitpidEv w.forkPid]) := by
  have h2 : ¬ w.forkPid < 0 := by omega
  simp only [safe_fork_exec, if_neg hargv, if_neg h2]
  rcases hr : w.readRes with _ | bs
  · exact ⟨rfl, by simp, by simp, fun f _ => rfl⟩
  · rcases bs with _ | ⟨c, cs⟩
    · exact ⟨rfl, by simp, by simp, by simp⟩
    · refine ⟨rfl, ?_, by simp, fun f _ => rfl⟩
      rintro bs hbs -
      simp only [Option.some.injEq] at hbs
      subst hbs
      simp

/-- C2 witness: the theorem applied at a concrete world (child pid 5, read
    returning the bytes "bad") and a concrete one-command spec. -/
theorem C2_safe_fork_exec_parent_witness :
    (⟨["c"], false, -1, false, 0⟩ : ProcSpecM).cmdArgv ≠ [] ∧
    (0 : Int) < (⟨5, some ['b', 'a', 'd']⟩ : ForkWorld).forkPid ∧
    ((safe_fork_exec ⟨5, some ['b', 'a', 'd']⟩
        ⟨["c"], false, -1, false, 0⟩).2.2.take 2 =
        [PEv.closeErrPipeWrite, PEv.readErrPipe] ∧
     (∀ bs : List Char,
        (⟨5, some ['b', 'a', 'd']⟩ : ForkWorld).readRes = some bs → bs ≠ [] →
        safe_fork_exec ⟨5, some ['b', 'a', 'd']⟩ ⟨["c"], false, -1, false, 0⟩ =
          (.error ⟨bs⟩, ⟨["c"], false, -1, false, 0⟩,
           [PEv.closeErrPipeWrite, PEv.readErrPipe,
            PEv.killEv 5 SIGTERM, PEv.waitpidEv 5])) ∧
     ((⟨5, some ['b', 'a', 'd']⟩ : ForkWorld).readRes = some [] →
        safe_fork_exec ⟨5, some ['b', 'a', 'd']⟩ ⟨["c"], false, -1, false, 0⟩ =
          (.ok 5, ⟨["c"], false, 5, false, 0⟩,
           [PEv.closeErrPipeWrite, PEv.readErrPipe])) ∧
     (∀ f, (safe_fork_exec ⟨5, some ['b', 'a', 'd']⟩
              ⟨["c"], false, -1, false, 0⟩).1 = .error f →
        (safe_fork_exec ⟨5, some ['b', 'a', 'd']⟩
            ⟨["c"], false, -1, false, 0⟩).2.2 =
          [PEv.closeErrPipeWrite, PEv.readErrPipe,
           PEv.killEv 5 SIGTERM, PEv.waitpidEv 5])) :=
  ⟨by decide, by decide,
   C2_safe_fork_exec_parent ⟨5, some ['b', 'a', 'd']⟩
     ⟨["c"], false, -1, false, 0⟩ (by decide) (by decide)⟩

/-- C4: `RunLock` opens the file with `O_CREAT|O_RDWR` and mode 0666 (438),
    sets close-on-exec, and takes a non-blocking exclusive flock
    (`LOCK_EX|LOCK_NB`); an EWOULDBLOCK from flock raises the
    already-running failure carrying the path, any other flock errno raises
    the generic lock failure (in both cases the fd is closed and not held);
    on success it truncates to zero and writes `"<pid>\n"`; the destructor,
    while the lock is held, truncates to zero and closes; and no path ever
    unlinks the file. -/
theorem C4_runlock (w : LockWorld) (path : String) :
    ((lockFile_open w path).2.2.head? =
       some (LEv.lOpenEv path (O_CREAT ||| O_RDWR) 438)) ∧
    (w.openOk = true →
      (lockFile_open w path).2.2.take 3 =
        [LEv.lOpenEv path (O_CREAT ||| O_RDWR) 438, LEv.lCloexecEv,
         LEv.lFlockEv (LOCK_EX ||| LOCK_NB)]) ∧
    (w.openOk = true → w.flockErrno = some EWOULDBLOCK →
      lockFile_open w path =
        (some (mkFailureS
          ("process is already running (pidfile " ++ path ++ " is locked)")),
         false,
         [LEv.lOpenEv path (O_CREAT ||| O_RDWR) 438, LEv.lCloexecEv,
          LEv.lFlockEv (LOCK_EX ||| LOCK_NB), LEv.lCloseEv])) ∧
    (∀ e, w.openOk = true → w.flockErrno = some e → e ≠ EWOULDBLOCK →
      lockFile_open w path =
        (some (mkFailureS ("unable to lock pidfile " ++ path)), false,
         [LEv.lOpenEv path (O_CREAT ||| O_RDWR) 438, LEv.lCloexecEv,
          LEv.lFlockEv (LOCK_EX ||| LOCK_NB), LEv.lCloseEv])) ∧
    (w.openOk = true → w.flockErrno = none → w.ftruncateOk = true →
      w.writeOk = true →
      lockFile_open w path =
        (none, true,
         [LEv.lOpenEv path (O_CREAT ||| O_RDWR) 438, LEv.lCloexecEv,
          LEv.lFlockEv (LOCK_EX ||| LOCK_NB), LEv.lFtruncateEv 0,
          LEv.lWriteEv (toString w.pid ++ "\n")])) ∧
    (lockFile_dtor true = [LEv.lFtruncateEv 0, LEv.lCloseEv]) ∧
    (LEv.lUnlinkEv ∉ (lockFile_open w path).2.2 ∧
      ∀ h, LEv.lUnlinkEv ∉ lockFile_dtor h) := by
  rcases w with ⟨oOk, fe, ft, wr, pid⟩
  rcases oOk with _ | _
  · refine ⟨rfl, by simp, by simp, by simp, by simp, rfl, by simp [lockFile_open], ?_⟩
    rintro (_ | _) <;> simp [lockFile_dtor]
  · rcases fe with _ | e
    · rcases ft with _ | _
      · refine ⟨rfl, fun _ => rfl, by simp [lockFile_open], ?_, by simp, rfl,
          by simp [lockFile_open], ?_⟩
        · rintro e - h -
          simp at h
        · rintro (_ | _) <;> simp [lockFile_dtor]
      · rcases wr with _ | _
        · refine ⟨rfl, fun _ => rfl, by simp [lockFile_open], ?_, by simp, rfl,
            by simp [lockFile_open], ?_⟩
          · rintro e - h -
            simp at h
          · rintro (_ | _) <;> simp [lockFile_dtor]
        · refine ⟨rfl, fun _ => rfl, by simp [lockFile_open], ?_, fun _ _ _ _ => rfl,
            rfl, by simp [lockFile_open], ?_⟩
          · rintro e - h -
            simp at h
          · rintro (_ | _) <;> simp [lockFile_dtor]
    · by_cases he : e = EWOULDBLOCK
      · subst he
        refine ⟨rfl, fun _ => rfl, fun _ _ => rfl, ?_, by simp, rfl,
          by simp [lockFile_open], ?_⟩
        · rintro e2 - h hne
          simp only [Option.some.injEq] at h
          exact absurd h.symm hne
        · rintro (_ | _) <;> simp [lockFile_dtor]
      · refine ⟨?_, ?_, ?_, ?_, by simp, rfl,
          ?_, ?_⟩
        · simp [lockFile_open, he]
        · rintro -
          simp [lockFile_open, he]
        · rintro - h
          simp only [Option.some.injEq] at h
          exact absurd h he
        · rintro e2 - h -
          simp only [Option.some.injEq] at h
          subst h
          simp [lockFile_open, if_neg he]
        · simp [lockFile_open, he]
        · rintro (_ | _) <;> simp [lockFile_dtor]

/-- C4 witness: the theorem applied at a concrete world whose flock fails
    with EWOULDBLOCK. -/
theorem C4_runlock_witness :
    ((lockFile_open ⟨true, some EWOULDBLOCK, true, true, 42⟩ "/run/x").2.2.head? =
       some (LEv.lOpenEv "/run/x" (O_CREAT ||| O_RDWR) 438)) ∧
    ((⟨true, some EWOULDBLOCK, true, true, 42⟩ : LockWorld).openOk = true →
      (lockFile_open ⟨true, some EWOULDBLOCK, true, true, 42⟩ "/run/x").2.2.take 3 =
        [LEv.lOpenEv "/run/x" (O_CREAT ||| O_RDWR) 438, LEv.lCloexecEv,
         LEv.lFlockEv (LOCK_EX ||| LOCK_NB)]) ∧
    ((⟨true, some EWOULDBLOCK, true, true, 42⟩ : LockWorld).openOk = true →
      (⟨true, some EWOULDBLOCK, true, true, 42⟩ : LockWorld).flockErrno =
        some EWOULDBLOCK →
      lockFile_open ⟨true, some EWOULDBLOCK, true, true, 42⟩ "/run/x" =
        (some (mkFailureS
          ("process is already running (pidfile " ++ "/run/x" ++ " is locked)")),
         false,
         [LEv.lOpenEv "/run/x" (O_CREAT ||| O_RDWR) 438, LEv.lCloexecEv,
          LEv.lFlockEv (LOCK_EX ||| LOCK_NB), LEv.lCloseEv])) ∧
    (∀ e, (⟨true, some EWOULDBLOCK, true, true, 42⟩ : LockWorld).openOk = true →
      (⟨true, some EWOULDBLOCK, true, true, 42⟩ : LockWorld).flockErrno = some e →
      e ≠ EWOULDBLOCK →
      lockFile_open ⟨true, some EWOULDBLOCK, true, true, 42⟩ "/run/x" =
        (some (mkFailureS ("unable to lock pidfile " ++ "/run/x")), false,
         [LEv.lOpenEv "/run/x" (O_CREAT ||| O_RDWR) 438, LEv.lCloexecEv,
          LEv.lFlockEv (LOCK_EX ||| LOCK_NB), LEv.lCloseEv])) ∧
    ((⟨true, some EWOULDBLOCK, true, true, 42⟩ : LockWorld).openOk = true →
      (⟨true, some EWOULDBLOCK, true, true, 42⟩ : LockWorld).flockErrno = none →
      (⟨true, some EWOULDBLOCK, true, true, 42⟩ : LockWorld).ftruncateOk = true →
      (⟨true, some EWOULDBLOCK, true, true, 42⟩ : LockWorld).writeOk = true →
      lockFile_open ⟨true, some EWOULDBLOCK, true, true, 42⟩ "/run/x" =
        (none, true,
         [LEv.lOpenEv "/run/x" (O_CREAT ||| O_RDWR) 438, LEv.lCloexecEv,
          LEv.lFlockEv (LOCK_EX ||| LOCK_NB), LEv.lFtruncateEv 0,
          LEv.lWriteEv (toString (42 : Nat) ++ "\n")])) ∧
    (lockFile_dtor true = [LEv.lFtruncateEv 0, LEv.lCloseEv]) ∧
    (LEv.lUnlinkEv ∉
        (lockFile_open ⟨true, some EWOULDBLOCK, true, true, 42⟩ "/run/x").2.2 ∧
      ∀ h, LEv.lUnlinkEv ∉ lockFile_dtor h) :=
  C4_runlock ⟨true, some EWOULDBLOCK, true, true, 42⟩ "/run/x"

/-- Helper: on the path where the pipe and the fork/exec succeed and the
    write does not fail, `try_error_write` reduces to the final
    child-exit-status check over the harvested spec. -/
theorem try_error_write_okfork (w : TryWorld) (s : ProcSpecM) (input : String)
    (pid : Int) (spec1 : ProcSpecM) (tr : List PEv)
    (hx : safe_fork_exec w.fork s.resetStatus = (.ok pid, spec1, tr))
    (hp : w.pipeOk = true) (hw2 : ¬ w.writeRet < 0) :
    try_error_write w [s] input =
      (none,
       if (((harvesterDtor w.rounds [spec1]).1.2.headD spec1).finished &&
           wIFEXITED (((harvesterDtor w.rounds [spec1]).1.2).headD spec1).status &&
           (wEXITSTATUS
              (((harvesterDtor w.rounds [spec1]).1.2).headD spec1).status == 0))
       then ([] : List String) else [input]) := by
  unfold try_error_write
  have h1 : ¬ (([s] : List ProcSpecM).length ≠ 1) := by simp
  rw [if_neg h1]
  dsimp only
  simp only [hp, Bool.not_true, Bool.false_eq_true, if_false]
  rw [hx]
  dsimp only
  rw [if_neg hw2]
  rcases hd : harvesterDtor w.rounds [spec1] with ⟨⟨f0, procs2⟩, hevs⟩
  split <;> simp_all

/-- C7: `try_error_write` propagates no failure to the caller in any world;
    a ProcessSpec count other than one is a failure, answered (like every
    other failure path -- pipe failure, fork/exec failure, write failure,
    and the child finishing other than by exiting with status 0) by writing
    the original input buffer to the supervisor's stderr; on the clean path
    (child reaped, exited normally with status 0) nothing is written. -/
theorem C7_try_error_write (w : TryWorld) (s : ProcSpecM) (input : String) :
    (∀ specs : List ProcSpecM, (try_error_write w specs input).1 = none) ∧
    (∀ specs : List ProcSpecM, specs.length ≠ 1 →
        try_error_write w specs input = (none, [input])) ∧
    (w.pipeOk = false → try_error_write w [s] input = (none, [input])) ∧
    (∀ f, (safe_fork_exec w.fork s.resetStatus).1 = .error f →
        try_error_write w [s] input = (none, [input])) ∧
    (w.writeRet < 0 → try_error_write w [s] input = (none, [input])) ∧
    (∀ pid spec1 tr, w.pipeOk = true →
      safe_fork_exec w.fork s.resetStatus = (.ok pid, spec1, tr) →
      0 ≤ w.writeRet →
      ((((harvesterDtor w.rounds [spec1]).1.2).headD spec1).finished &&
        wIFEXITED (((harvesterDtor w.rounds [spec1]).1.2).headD spec1).status &&
        (wEXITSTATUS (((harvesterDtor w.rounds [spec1]).1.2).headD spec1).status
          == 0)) = false →
      try_error_write w [s] input = (none, [input])) ∧
    (∀ pid spec1 tr, w.pipeOk = true →
      safe_fork_exec w.fork s.resetStatus = (.ok pid, spec1, tr) →
      0 ≤ w.writeRet →
      ((((harvesterDtor w.rounds [spec1]).1.2).headD spec1).finished &&
        wIFEXITED (((harvesterDtor w.rounds [spec1]).1.2).headD spec1).status &&
        (wEXITSTATUS (((harvesterDtor w.rounds [spec1]).1.2).headD spec1).status
          == 0)) = true →
      try_error_write w [s] input = (none, [])) := by
  refine ⟨?_, ?_, ?_, ?_, ?_, ?_, ?_⟩
  · intro specs
    unfold try_error_write
    repeat' first | rfl | split
    all_goals
      dsimp only
      split <;> rfl
  · intro specs h
    unfold try_error_write
    rw [if_pos h]
  · intro hp
    unfold try_error_write
    simp [hp]
  · intro f hf
    rcases hx : safe_fork_exec w.fork s.resetStatus with ⟨r, sp, tr⟩
    rw [hx] at hf
    simp only at hf
    subst hf
    cases hp : w.pipeOk <;> simp [try_error_write, hx, hp]
  · intro hw
    rcases hx : safe_fork_exec w.fork s.resetStatus with ⟨r, sp, tr⟩
    cases hp : w.pipeOk
    · simp [try_error_write, hp]
    · cases r with
      | error g => simp [try_error_write, hx, hp]
      | ok pid => simp [try_error_write, hx, hp, if_pos hw]
  · intro pid spec1 tr hp hx hw hc
    have hw2 : ¬ w.writeRet < 0 := by omega
    rw [try_error_write_okfork w s input pid spec1 tr hx hp hw2, hc]
    simp
  · intro pid spec1 tr hp hx hw hc
    have hw2 : ¬ w.writeRet < 0 := by omega
    rw [try_error_write_okfork w s input pid spec1 tr hx hp hw2, hc]
    simp

/-- C7 witness: the theorem applied at a concrete world in which the child
    is forked as pid 5, execs, takes the write, and exits 0. -/
theorem C7_try_error_write_witness :
    (∀ specs : List ProcSpecM, (try_error_write c7World specs "oops").1 = none) ∧
    (∀ specs : List ProcSpecM, specs.length ≠ 1 →
        try_error_write c7World specs "oops" = (none, ["oops"])) ∧
    (c7World.pipeOk = false →
        try_error_write c7World [c7Spec] "oops" = (none, ["oops"])) ∧
    (∀ f, (safe_fork_exec c7World.fork c7Spec.resetStatus).1 = .error f →
        try_error_write c7World [c7Spec] "oops" = (none, ["oops"])) ∧
    (c7World.writeRet < 0 →
        try_error_write c7World [c7Spec] "oops" = (none, ["oops"])) ∧
    (∀ pid spec1 tr, c7World.pipeOk = true →
      safe_fork_exec c7World.fork c7Spec.resetStatus = (.ok pid, spec1, tr) →
      0 ≤ c7World.writeRet →
      ((((harvesterDtor c7World.rounds [spec1]).1.2).headD spec1).finished &&
        wIFEXITED
          (((harvesterDtor c7World.rounds [spec1]).1.2).headD spec1).status &&
        (wEXITSTATUS
          (((harvesterDtor c7World.rounds [spec1]).1.2).headD spec1).status
          == 0)) = false →
      try_error_write c7World [c7Spec] "oops" = (none, ["oops"])) ∧
    (∀ pid spec1 tr, c7World.pipeOk = true →
      safe_fork_exec c7World.fork c7Spec.resetStatus = (.ok pid, spec1, tr) →
      0 ≤ c7World.writeRet →
      ((((harvesterDtor c7World.rounds [spec1]).1.2).headD spec1).finished &&
        wIFEXITED
          (((harvesterDtor c7World.rounds [spec1]).1.2).headD spec1).status &&
        (wEXITSTATUS
          (((harvesterDtor c7World.rounds [spec1]).1.2).headD spec1).status
          == 0)) = true →
      try_error_write c7World [c7Spec] "oops" = (none, [])) :=
  C7_try_error_write c7World c7Spec "oops"

/-- Helper: when `kill` succeeds for every running, forwarding proc, the
    forwarding loop kills exactly the running procs with `m_forwardSignals`
    set, in list order, and raises no failure. -/
theorem forwardKills_all_ok (killOk : Int → Bool) (sig : Nat) :
    ∀ procs : List ProcSpecM,
      (∀ p ∈ procs, p.running = true → p.forwardSignals = true →
          killOk p.pid = true) →
      forwardKills killOk sig procs =
        (none,
         (procs.filter (fun p => p.running && p.forwardSignals)).map
           (fun p => HEv.hKillEv p.pid sig)) := by
  intro procs
  induction procs with
  | nil => intro _; rfl
  | cons p rest ih =>
    intro h
    have hrest := ih (fun q hq hr hf => h q (List.mem_cons_of_mem p hq) hr hf)
    by_cases hpf : (p.running && p.forwardSignals) = true
    · have hk : killOk p.pid = true :=
        h p (List.mem_cons_self p rest)
          (by exact (Bool.and_eq_true _ _ |>.mp hpf).1)
          (by exact (Bool.and_eq_true _ _ |>.mp hpf).2)
      simp [forwardKills, hpf, hk, hrest]
    · simp [forwardKills, hpf, hrest]

/-- Helper: if some running, forwarding proc has a failing `kill`, the
    forwarding loop raises a failure. -/
theorem forwardKills_fail (killOk : Int → Bool) (sig : Nat) :
    ∀ procs : List ProcSpecM, ∀ p ∈ procs,
      p.running = true → p.forwardSignals = true → killOk p.pid = false →
      (forwardKills killOk sig procs).1.isSome = true := by
  intro procs
  induction procs with
  | nil => intro p hp; simp at hp
  | cons q rest ih =>
    intro p hp hr hf hk
    rcases List.mem_cons.mp hp with hpq | hp2
    · subst hpq
      simp [forwardKills, hr, hf, hk]
    · by_cases hqf : (q.running && q.forwardSignals) = true
      · by_cases hqk : killOk q.pid = true
        · have := ih p hp2 hr hf hk
          rcases hfk : forwardKills killOk sig rest with ⟨fk, kevs⟩
          rw [hfk] at this
          simp [forwardKills, hqf, hqk, hfk, this]
        · simp [forwardKills, hqf, hqk]
      · exact (by simpa [forwardKills, hqf] using ih p hp2 hr hf hk)

/-- C5 (amended): in a harvest iteration whose scan leaves children running,
    a SIGTERM/SIGINT/SIGQUIT from `sigwait` is forwarded via `kill(pid,sig)`
    to exactly the (post-scan) running ProcessSpecs with `forward_signals`
    set; a kill failure raises a supervisor failure from `harvest`; any
    other signal (SIGCHLD, SIGHUP, SIGPIPE, ...) causes no kill and simply
    re-enters the loop, whose next iteration re-scans; and the harvester's
    destructor -- the only place `execute` runs the harvest -- absorbs every
    failure, so the kill failure is not propagated out of `execute`. -/
theorem C5_harvest_signal_dispatch (r : HRound) (rest : List HRound)
    (procs procs1 : List ProcSpecM) (sevs : List HEv)
    (hscan : harvestScan r.waitRes procs = ((procs1, true, none), sevs)) :
    ((r.sig = SIGTERM ∨ r.sig = SIGINT ∨ r.sig = SIGQUIT) →
      (∀ p ∈ procs1, p.running = true → p.forwardSignals = true →
          r.killOk p.pid = true) →
      harvest (r :: rest) procs =
        ((harvest rest procs1).1,
         sevs ++ [HEv.sigwaitEv r.sig] ++
           (procs1.filter (fun p => p.running && p.forwardSignals)).map
             (fun p => HEv.hKillEv p.pid r.sig) ++
           (harvest rest procs1).2)) ∧
    ((r.sig = SIGTERM ∨ r.sig = SIGINT ∨ r.sig = SIGQUIT) →
      (∃ p ∈ procs1, p.running = true ∧ p.forwardSignals = true ∧
          r.killOk p.pid = false) →
      (harvest (r :: rest) procs).1.1.isFailed = true) ∧
    (¬(r.sig = SIGTERM ∨ r.sig = SIGINT ∨ r.sig = SIGQUIT) →
      harvest (r :: rest) procs =
        ((harvest rest procs1).1,
         sevs ++ [HEv.sigwaitEv r.sig] ++ (harvest rest procs1).2)) ∧
    (∀ rounds ps, (harvesterDtor rounds ps).1.1 = none) := by
  refine ⟨?_, ?_, ?_, ?_⟩
  · intro hsig hkill
    rcases hrec : harvest rest procs1 with ⟨out, evs3⟩
    simp only [harvest, hscan]
    rw [if_pos hsig, forwardKills_all_ok r.killOk r.sig procs1 hkill]
    simp [hrec, List.append_assoc]
  · intro hsig hex
    obtain ⟨p, hp, hrun, hfwd, hk⟩ := hex
    have hsome := forwardKills_fail r.killOk r.sig procs1 p hp hrun hfwd hk
    rcases hfk : forwardKills r.killOk r.sig procs1 with ⟨fk, kevs⟩
    rw [hfk] at hsome
    cases fk with
    | none => simp at hsome
    | some f =>
        simp only [harvest, hscan]
        rw [if_pos hsig, hfk]
        simp [HOut.isFailed]
  · intro hsig
    rcases hrec : harvest rest procs1 with ⟨out, evs3⟩
    simp only [harvest, hscan]
    rw [if_neg hsig]
    simp [hrec]
  · intro rounds ps
    rcases h : harvest rounds ps with ⟨⟨o, p2⟩, evs⟩
    simp [harvesterDtor, h]

/-- C5 witness: the theorem applied at a concrete round delivering SIGTERM
    to two running procs, one forwarding (pid 5) and one not (pid 6). -/
theorem C5_harvest_signal_dispatch_witness :
    ((c5Round.sig = SIGTERM ∨ c5Round.sig = SIGINT ∨ c5Round.sig = SIGQUIT) →
      (∀ p ∈ [c5Proc, c5ProcNoFwd], p.running = true →
          p.forwardSignals = true → c5Round.killOk p.pid = true) →
      harvest [c5Round] [c5Proc, c5ProcNoFwd] =
        ((harvest [] [c5Proc, c5ProcNoFwd]).1,
         [HEv.hWaitpidEv 5, HEv.hWaitpidEv 6] ++ [HEv.sigwaitEv c5Round.sig] ++
           (([c5Proc, c5ProcNoFwd].filter
              (fun p => p.running && p.forwardSignals)).map
             (fun p => HEv.hKillEv p.pid c5Round.sig)) ++
           (harvest [] [c5Proc, c5ProcNoFwd]).2)) ∧
    ((c5Round.sig = SIGTERM ∨ c5Round.sig = SIGINT ∨ c5Round.sig = SIGQUIT) →
      (∃ p ∈ [c5Proc, c5ProcNoFwd], p.running = true ∧
          p.forwardSignals = true ∧ c5Round.killOk p.pid = false) →
      (harvest [c5Round] [c5Proc, c5ProcNoFwd]).1.1.isFailed = true) ∧
    (¬(c5Round.sig = SIGTERM ∨ c5Round.sig = SIGINT ∨ c5Round.sig = SIGQUIT) →
      harvest [c5Round] [c5Proc, c5ProcNoFwd] =
        ((harvest [] [c5Proc, c5ProcNoFwd]).1,
         [HEv.hWaitpidEv 5, HEv.hWaitpidEv 6] ++ [HEv.sigwaitEv c5Round.sig] ++
           (harvest [] [c5Proc, c5ProcNoFwd]).2)) ∧
    (∀ rounds ps, (harvesterDtor rounds ps).1.1 = none) :=
  C5_harvest_signal_dispatch c5Round [] [c5Proc, c5ProcNoFwd]
    [c5Proc, c5ProcNoFwd] [HEv.hWaitpidEv 5, HEv.hWaitpidEv 6] (by decide)

/-- C5 counterexample to the claim as stated: with one running forwarding
    proc (pid 5) and a SIGTERM whose `kill` fails, `harvest` itself raises
    the supervisor failure -- but the harvester destructor, which is the
    only place `execute` ever runs the harvest, absorbs it, so no error is
    reported out of `execute`. -/
theorem C5_kill_failure_not_out_of_execute :
    (harvest [⟨fun _ => WaitR.stillRunning, SIGTERM, fun _ => false⟩]
        [c5Proc]).1.1 =
      HOut.failedOut (mkFailureS "kill pid=5 sig=15 failed: %m") ∧
    (harvesterDtor [⟨fun _ => WaitR.stillRunning, SIGTERM, fun _ => false⟩]
        [c5Proc]).1.1 = none := ⟨rfl, rfl⟩

/-- Helper: a character list containing a slash has a last-slash index. -/
theorem lastSlashIdx_isSome_of_mem (l : List Char) (h : '/' ∈ l) :
    (lastSlashIdx l).isSome = true := by
  unfold lastSlashIdx
  cases hf : l.reverse.findIdx? (· = '/') with
  | some r => rfl
  | none =>
      exfalso
      have := List.findIdx?_eq_none_iff.mp hf '/' (List.mem_reverse.mpr h)
      simp at this

/-- Helper: when every syscall succeeds and every argument splits as a
    `target=src` pair, the pair-processing loop succeeds, its symlink events
    are exactly `symlink(src, WITH_MOUNTPOINT/target)` for the pairs in
    order, and it performs no namespace-setup syscall. -/
theorem processPairs_ok (w : HelperWorld) (hmk : w.mkdirOk = true)
    (hsl : w.symlinkOk = true) :
    ∀ (args : List String) (pairs : List (String × String)),
      args.map splitPair = pairs.map some →
      (processPairs w args).1 = true ∧
      symlinkEvents (processPairs w args).2 =
        pairs.map (fun p => (p.2, WITH_MOUNTPOINT ++ "/" ++ p.1)) ∧
      ((processPairs w args).2.all (fun e => !isNamespaceSetupEv e)) = true := by
  intro args
  induction args with
  | nil =>
      intro pairs h
      cases pairs with
      | nil => exact ⟨rfl, rfl, rfl⟩
      | cons p ps => simp at h
  | cons a rest ih =>
      intro pairs h
      cases pairs with
      | nil => simp at h
      | cons p ps =>
          simp only [List.map_cons, List.cons.injEq] at h
          obtain ⟨hsp, hrest⟩ := h
          obtain ⟨ok2, hsyml2, hall2⟩ := ih ps hrest
          rcases p with ⟨target, source⟩
          have hslash : '/' ∈ (WITH_MOUNTPOINT ++ "/" ++ target).toList := by
            have : (WITH_MOUNTPOINT ++ "/" ++ target).toList =
                (WITH_MOUNTPOINT ++ "/").toList ++ target.toList :=
              String.data_append _ _
            rw [this]
            exact List.mem_append_left _ (by decide)
          obtain ⟨i, hi⟩ := Option.isSome_iff_exists.mp
            (lastSlashIdx_isSome_of_mem _ hslash)
          rcases hpp : processPairs w rest with ⟨okr, evsr⟩
          simp only [processPairs, hsp, hi, hpp]
          rw [hpp] at ok2 hsyml2 hall2
          simp only at ok2 hsyml2 hall2
          simp [hmk, hsl, ok2, symlinkEvents, hsyml2, hall2, isNamespaceSetupEv]
          intro x hx
          have h3 := List.all_eq_true.mp hall2 x hx
          simpa [isNamespaceSetupEv] using h3

/-- Helper: `symlinkEvents` distributes over append. -/
theorem symlinkEvents_append (l1 l2 : List HelpEv) :
    symlinkEvents (l1 ++ l2) = symlinkEvents l1 ++ symlinkEvents l2 := by
  induction l1 with
  | nil => rfl
  | cons e rest ih =>
      cases e <;> simp [symlinkEvents, ih]

/-- C3 (amended): the symlink-only boot path is reached with
    `exec_with_namespace --init.d target=src ...` -- the pairs directly
    after `--init.d`, with no separate mount-name token, because `main`
    pushes `"--init.d"` itself as the head of `ns_args` and
    `create_symlinks_and_metadata` skips only that head.  In that form, with
    well-formed pairs and succeeding syscalls, the helper performs no
    unshare/umount/mount, creates `symlink(src, /with/target)` for exactly
    the given pairs in order, writes the `.ns` metadata file (whose first
    token is `--init.d`), and exits 0. -/
theorem C3_initd_symlinks_amended (w : HelperWorld) (prog : String)
    (args : List String) (pairs : List (String × String))
    (hmk : w.mkdirOk = true) (hsl : w.symlinkOk = true)
    (hpairs : args.map splitPair = pairs.map some) :
    (helperMain w (prog :: "--init.d" :: args)).1 = 0 ∧
    symlinkEvents (helperMain w (prog :: "--init.d" :: args)).2 =
      pairs.map (fun p => (p.2, WITH_MOUNTPOINT ++ "/" ++ p.1)) ∧
    ((helperMain w (prog :: "--init.d" :: args)).2.all
        (fun e => !isNamespaceSetupEv e)) = true ∧
    HelpEv.writeFileEv (WITH_MOUNTPOINT ++ "/.ns")
        (nsFileContent ("--init.d" :: args)) ∈
      (helperMain w (prog :: "--init.d" :: args)).2 := by
  obtain ⟨hok, hsym, hall⟩ := processPairs_ok w hmk hsl args pairs hpairs
  rcases hpp : processPairs w args with ⟨okr, evsr⟩
  rw [hpp] at hok hsym hall
  simp only at hok hsym hall
  subst hok
  simp only [helperMain, create_symlinks_and_metadata, List.tail_cons, hpp,
    Bool.not_true, Bool.false_eq_true, if_false, if_true, reduceIte]
  refine ⟨trivial, ?_, ?_, ?_⟩
  · rw [symlinkEvents_append, hsym]
    simp [symlinkEvents]
  · rw [List.all_append]
    simp only [hall, Bool.true_and]
    rfl
  · exact List.mem_append_right _ (List.mem_singleton.mpr rfl)

/-- C3 witness: the theorem applied to the concrete invocation
    `exec_with_namespace --init.d bin=/usr/local/bin etc/app=/opt/etc`. -/
theorem C3_initd_symlinks_amended_witness :
    helperAllOk.mkdirOk = true ∧ helperAllOk.symlinkOk = true ∧
    (["bin=/usr/local/bin", "etc/app=/opt/etc"].map splitPair =
      [("bin", "/usr/local/bin"), ("etc/app", "/opt/etc")].map some) ∧
    ((helperMain helperAllOk ["exec_with_namespace", "--init.d",
        "bin=/usr/local/bin", "etc/app=/opt/etc"]).1 = 0 ∧
     symlinkEvents (helperMain helperAllOk ["exec_with_namespace", "--init.d",
        "bin=/usr/local/bin", "etc/app=/opt/etc"]).2 =
       [("bin", "/usr/local/bin"), ("etc/app", "/opt/etc")].map
         (fun p => (p.2, WITH_MOUNTPOINT ++ "/" ++ p.1)) ∧
     ((helperMain helperAllOk ["exec_with_namespace", "--init.d",
        "bin=/usr/local/bin", "etc/app=/opt/etc"]).2.all
        (fun e => !isNamespaceSetupEv e)) = true ∧
     HelpEv.writeFileEv (WITH_MOUNTPOINT ++ "/.ns")
        (nsFileContent ("--init.d" ::
          ["bin=/usr/local/bin", "etc/app=/opt/etc"])) ∈
       (helperMain helperAllOk ["exec_with_namespace", "--init.d",
        "bin=/usr/local/bin", "etc/app=/opt/etc"]).2) :=
  ⟨rfl, rfl, by decide,
   C3_initd_symlinks_amended helperAllOk "exec_with_namespace"
     ["bin=/usr/local/bin", "etc/app=/opt/etc"]
     [("bin", "/usr/local/bin"), ("etc/app", "/opt/etc")]
     rfl rfl (by decide)⟩

/-- C3 counterexample to the claim as stated: invoked as
    `exec_with_namespace --init.d nsA bin=/usr/bin` (first argument
    `--init.d`, then a mount-name token, then a well-formed pair) the helper
    exits 1 having emitted no events at all -- no symlink is created and no
    `.ns` file is written -- because the mount-name `nsA` is itself parsed
    as a `target=src` pair and fails the form check. -/
theorem C3_initd_mount_name_rejected :
    helperMain helperAllOk
        ["exec_with_namespace", "--init.d", "nsA", "bin=/usr/bin"] =
      (1, []) ∧ (1 : Nat) ≠ 0 := by decide

/-- Helper: `putenv`-ing a list of entries with pairwise-distinct KEYs onto
    an accumulator that shares no KEY with them appends them in order. -/
theorem foldl_putenv_nodup :
    ∀ (entries acc : List String),
      (((acc ++ entries).map envKey).Nodup) →
      entries.foldl putenvModel acc = acc ++ entries := by
  intro entries
  induction entries with
  | nil => intro acc _; simp
  | cons e rest ih =>
      intro acc h
      have hkey : acc.any (fun x => envKey x = envKey e) = false := by
        rw [List.any_eq_false]
        intro x hx
        simp only [decide_eq_true_eq]
        intro hxe
        rw [List.map_append, List.nodup_append] at h
        exact h.2.2 (List.mem_map_of_mem envKey hx)
          (by simp [hxe])
      have hstep : putenvModel acc e = acc ++ [e] := by
        simp [putenvModel, hkey]
      have hrec := ih (acc ++ [e]) (by simpa using h)
      calc (e :: rest).foldl putenvModel acc
      _ = rest.foldl putenvModel (putenvModel acc e) := rfl
      _ = rest.foldl putenvModel (acc ++ [e]) := by rw [hstep]
      _ = (acc ++ [e]) ++ rest := hrec
      _ = acc ++ e :: rest := by simp

/-- Helper: with pairwise-distinct KEYs, `clearenv` + `putenv` of every
    entry reproduces exactly the given entry list. -/
theorem installEnv_nodup_keys (entries : List String)
    (h : (entries.map envKey).Nodup) : installEnv entries = entries := by
  simpa [installEnv] using foldl_putenv_nodup entries [] (by simpa using h)

/-- C8 (amended): for a KEY=VALUE list with pairwise-distinct KEYs handed
    after the second `--`, the helper clears its environment and installs
    exactly those entries: the `execvp` is reached with environ equal (as a
    list, hence as a set) to the entries on the command line.  With
    duplicate KEYs, `putenv` keeps only the last entry per KEY, so the
    claimed set-equality holds only under key-distinctness. -/
theorem C8_env_roundtrip_amended (prog : String)
    (tokens execArgs nsArgs envArgs : List String)
    (pairs : List (String × String))
    (hsplit : splitBack tokens = (execArgs, nsArgs, envArgs))
    (hinitd : tokens.head? ≠ some "--init.d")
    (hns : nsArgs ≠ [])
    (hpairs : nsArgs.tail.map splitPair = pairs.map some)
    (hkeys : (envArgs.map envKey).Nodup) :
    (helperMain helperAllOk (prog :: tokens)).2.getLast? =
      some (HelpEv.execEv execArgs envArgs) ∧
    installEnv envArgs = envArgs := by
  have hinst : installEnv envArgs = envArgs := installEnv_nodup_keys envArgs hkeys
  refine ⟨?_, hinst⟩
  cases tokens with
  | nil =>
      exfalso
      have : splitBack [] = (([] : List String), ([] : List String),
        ([] : List String)) := rfl
      rw [this] at hsplit
      exact hns (by injection hsplit with _ h2; injection h2 with h3 _; exact h3.symm)
  | cons a1 rest =>
      have ha1 : ¬ a1 = "--init.d" := by
        intro hEq
        exact hinitd (by simp [hEq])
      obtain ⟨hok, _, _⟩ :=
        processPairs_ok helperAllOk rfl rfl nsArgs.tail pairs hpairs
      rcases hpp : processPairs helperAllOk nsArgs.tail with ⟨okr, evsr⟩
      rw [hpp] at hok
      simp only at hok
      subst hok
      have hcsm : create_symlinks_and_metadata helperAllOk nsArgs =
          (0, evsr ++ [HelpEv.writeFileEv (WITH_MOUNTPOINT ++ "/.ns")
            (nsFileContent nsArgs)]) := by
        simp [create_symlinks_and_metadata, hpp]
      have hnsE : nsArgs.isEmpty = false := by
        cases nsArgs with
        | nil => exact absurd rfl hns
        | cons x xs => rfl
      have hf1 : helperAllOk.unshareOk = true := rfl
      have hf2 : helperAllOk.umountOk = true := rfl
      have hf3 : helperAllOk.mountOk = true := rfl
      have hf4 : helperAllOk.setuidOk = true := rfl
      have hf5 : helperAllOk.execOk = true := rfl
      simp only [helperMain, if_neg ha1, hsplit, hnsE, hcsm, hf1, hf2, hf3,
        hf4, hf5, Bool.not_true, Bool.false_eq_true, if_false, reduceIte,
        hinst]
      rw [if_neg (by decide : ¬ ((0 : Nat) ≠ 0))]
      exact List.getLast?_concat _

/-- C8 witness: the theorem applied to the concrete command line
    `p cmd -- mnt t=s -- X=1 Y=2` (distinct KEYs X and Y). -/
theorem C8_env_roundtrip_amended_witness :
    splitBack ["cmd", "--", "mnt", "t=s", "--", "X=1", "Y=2"] =
      (["cmd"], ["mnt", "t=s"], ["X=1", "Y=2"]) ∧
    (["cmd", "--", "mnt", "t=s", "--", "X=1", "Y=2"] :
        List String).head? ≠ some "--init.d" ∧
    (["mnt", "t=s"] : List String) ≠ [] ∧
    ((["mnt", "t=s"] : List String).tail.map splitPair =
      [("t", "s")].map some) ∧
    ((["X=1", "Y=2"].map envKey).Nodup) ∧
    ((helperMain helperAllOk
        ("p" :: ["cmd", "--", "mnt", "t=s", "--", "X=1", "Y=2"])).2.getLast? =
          some (HelpEv.execEv ["cmd"] ["X=1", "Y=2"]) ∧
      installEnv ["X=1", "Y=2"] = ["X=1", "Y=2"]) :=
  ⟨by decide, by decide, by decide, by decide, by decide,
   C8_env_roundtrip_amended "p" ["cmd", "--", "mnt", "t=s", "--", "X=1", "Y=2"]
     ["cmd"] ["mnt", "t=s"] ["X=1", "Y=2"] [("t", "s")]
     (by decide) (by decide) (by decide) (by decide) (by decide)⟩

/-- C8 counterexample to the claim as stated: with the duplicate-KEY list
    `X=1 X=2` after the second `--`, the helper reaches `execvp` with
    environ `["X=2"]` -- `putenv` replaced the earlier `X=1` -- so the set
    of environ entries is not the set handed on the command line
    (`X=1` is in the latter but not the former). -/
theorem C8_duplicate_key_env :
    helperMain helperAllOk
        ["p", "cmd", "--", "mnt", "t=s", "--", "X=1", "X=2"] =
      (0,
       [HelpEv.unshareEv, HelpEv.umountEv, HelpEv.mountEv "mnt",
        HelpEv.mkdirEv "/with", HelpEv.symlinkEv "s" "/with/t",
        HelpEv.writeFileEv "/with/.ns" "mnt t=s ",
        HelpEv.writeFileEv "/with/.env" "X=1\nX=2\n",
        HelpEv.execEv ["cmd"] ["X=2"]]) ∧
    "X=1" ∈ (["X=1", "X=2"] : List String) ∧
    "X=1" ∉ (["X=2"] : List String) := by decide

end WithNS
